import Mathlib

/-!
Shallow embedding of the logical type catalog of `src/src/datatypes/mod.rs`
(the `datafuse-extras/arrow2` datatypes module): the `DataType` enum, its
manual `PartialEq` implementation, `DataType::equals_datatype`,
`DataType::to_physical_type` and `DataType::is_phsical_type`, together with
the collaborating `Field` and `Extension` values whose accessor contracts the
module consumes.
-/

namespace Arrow2

/-- `TimeUnit` from the source: seconds, milliseconds, microseconds or
nanoseconds. -/
inductive TimeUnit where
  | Second
  | Millisecond
  | Microsecond
  | Nanosecond
deriving DecidableEq

/-- `IntervalUnit` from the source: YEAR_MONTH or DAY_TIME interval. -/
inductive IntervalUnit where
  | YearMonth
  | DayTime
deriving DecidableEq

mutual

/-- The `DataType` enum of the source, with its variants in declaration
order (the order fixes the discriminant used by `PartialEq`'s fallback arm).
`Box<Field>` and `Vec<Field>` payloads become `Field` and `FieldList`;
`Arc<dyn Extension>` becomes the modelled `Extension` value. -/
inductive DataType where
  | Null
  | Boolean
  | Int8
  | Int16
  | Int32
  | Int64
  | UInt8
  | UInt16
  | UInt32
  | UInt64
  | Float16
  | Float32
  | Float64
  | Timestamp (unit : TimeUnit) (tz : Option String)
  | Date32
  | Date64
  | Time32 (unit : TimeUnit)
  | Time64 (unit : TimeUnit)
  | Duration (unit : TimeUnit)
  | Interval (unit : IntervalUnit)
  | Binary
  | FixedSizeBinary (size : Int)
  | LargeBinary
  | Utf8
  | LargeUtf8
  | List (field : Field)
  | FixedSizeList (field : Field) (size : Int)
  | LargeList (field : Field)
  | Struct (fields : FieldList)
  | Union (fields : FieldList) (ids : Option (List Int)) (is_sparse : Bool)
  | Dictionary (key : DataType) (value : DataType)
  | Decimal (precision : Nat) (scale : Nat)
  | Extension (ext : Extension)

/-- Modelled from the spec: the external `Field` record — "name (string),
nullable (boolean), logical type (owned), metadata (opaque key/value map)".
Only `is_nullable()` and `data_type()` are consumed by the module under
`src/`; exact `Field` equality compares all four components. -/
inductive Field where
  | mk (name : String) (nullable : Bool) (dtype : DataType)
      (metadata : List (String × String))

/-- An ordered sequence of `Field`s (`Vec<Field>` in the source). -/
inductive FieldList where
  | nil
  | cons (head : Field) (tail : FieldList)

/-- Modelled from the spec: the `Extension` capability object — it "can
report its own underlying logical type and support equality comparison with
other extension instances"; equality is "same concrete extension kind AND
equal by that kind's notion of identity/value", here: equal kind tag and
equal reported underlying logical type. -/
inductive Extension where
  | mk (kind : String) (dtype : DataType)

end

namespace Field

/-- `Field::is_nullable()` accessor. -/
def is_nullable : Field → Bool
  | .mk _ n _ _ => n

/-- `Field::data_type()` accessor. -/
def data_type : Field → DataType
  | .mk _ _ t _ => t

end Field

namespace Extension

/-- `Extension::data_type()`: the logical type the extension stands in for. -/
def data_type : Extension → DataType
  | .mk _ t => t

end Extension

namespace FieldList

/-- `Vec::len()` on a field sequence. -/
def length : FieldList → Nat
  | .nil => 0
  | .cons _ tl => length tl + 1

end FieldList

/-- `core::mem::discriminant` on `DataType`: the index of the variant in
declaration order. -/
def DataType.tag : DataType → Nat
  | .Null => 0
  | .Boolean => 1
  | .Int8 => 2
  | .Int16 => 3
  | .Int32 => 4
  | .Int64 => 5
  | .UInt8 => 6
  | .UInt16 => 7
  | .UInt32 => 8
  | .UInt64 => 9
  | .Float16 => 10
  | .Float32 => 11
  | .Float64 => 12
  | .Timestamp _ _ => 13
  | .Date32 => 14
  | .Date64 => 15
  | .Time32 _ => 16
  | .Time64 _ => 17
  | .Duration _ => 18
  | .Interval _ => 19
  | .Binary => 20
  | .FixedSizeBinary _ => 21
  | .LargeBinary => 22
  | .Utf8 => 23
  | .LargeUtf8 => 24
  | .List _ => 25
  | .FixedSizeList _ _ => 26
  | .LargeList _ => 27
  | .Struct _ => 28
  | .Union _ _ _ => 29
  | .Dictionary _ _ => 30
  | .Decimal _ _ => 31
  | .Extension _ => 32

mutual

/-- `impl PartialEq for DataType` (source lines 137-158): an explicit arm per
payload-carrying variant pair, and a discriminant comparison as the fallback
arm for every other pair. -/
def DataType.eqDT : DataType → DataType → Bool
  | .Timestamp l0 l1, .Timestamp r0 r1 => l0 == r0 && l1 == r1
  | .Time32 l0, .Time32 r0 => l0 == r0
  | .Time64 l0, .Time64 r0 => l0 == r0
  | .Duration l0, .Duration r0 => l0 == r0
  | .Interval l0, .Interval r0 => l0 == r0
  | .FixedSizeBinary l0, .FixedSizeBinary r0 => l0 == r0
  | .List l0, .List r0 => Field.eqF l0 r0
  | .FixedSizeList l0 l1, .FixedSizeList r0 r1 => Field.eqF l0 r0 && l1 == r1
  | .LargeList l0, .LargeList r0 => Field.eqF l0 r0
  | .Struct l0, .Struct r0 => FieldList.eqFL l0 r0
  | .Union l0 l1 l2, .Union r0 r1 r2 =>
      FieldList.eqFL l0 r0 && l1 == r1 && l2 == r2
  | .Dictionary l0 l1, .Dictionary r0 r1 =>
      DataType.eqDT l0 r0 && DataType.eqDT l1 r1
  | .Decimal l0 l1, .Decimal r0 r1 => l0 == r0 && l1 == r1
  | .Extension l0, .Extension r0 => Extension.eqExt l0 r0
  | x, y => DataType.tag x == DataType.tag y
termination_by structural x => x

/-- Modelled from the spec: exact `Field` equality "compares name,
nullability, logical type, and metadata". -/
def Field.eqF : Field → Field → Bool
  | .mk n1 b1 t1 m1, .mk n2 b2 t2 m2 =>
      n1 == n2 && b1 == b2 && DataType.eqDT t1 t2 && m1 == m2
termination_by structural f => f

/-- `Vec<Field>` equality: same length and pairwise equal elements. -/
def FieldList.eqFL : FieldList → FieldList → Bool
  | .nil, .nil => true
  | .cons f fs, .cons g gs => Field.eqF f g && FieldList.eqFL fs gs
  | _, _ => false
termination_by structural l => l

/-- Modelled from the spec: `Extension` equality — same concrete extension
kind and equal reported underlying logical type. -/
def Extension.eqExt : Extension → Extension → Bool
  | .mk k1 t1, .mk k2 t2 => k1 == k2 && DataType.eqDT t1 t2
termination_by structural e => e

end

mutual

/-- `DataType::equals_datatype` (source lines 218-238): compares the datatype
with another, ignoring nested field names and metadata.  The `List`,
`LargeList`, `FixedSizeList` and `Struct` arms read only `is_nullable()` and
`data_type()` of the child fields (written here as pattern components); every
other pair falls back to `self == other`, the exact `PartialEq` equality. -/
def DataType.equals_datatype : DataType → DataType → Bool
  | .List (.mk _ an ta _), .List (.mk _ bn tb _) =>
      an == bn && DataType.equals_datatype ta tb
  | .LargeList (.mk _ an ta _), .LargeList (.mk _ bn tb _) =>
      an == bn && DataType.equals_datatype ta tb
  | .FixedSizeList (.mk _ an ta _) asize, .FixedSizeList (.mk _ bn tb _) bsize =>
      asize == bsize && an == bn && DataType.equals_datatype ta tb
  | .Struct a, .Struct b =>
      FieldList.length a == FieldList.length b && FieldList.zipAllEquals a b
  | x, y => DataType.eqDT x y
termination_by structural x => x

/-- The `a.iter().zip(b).all(|(a, b)| ...)` body of the `Struct` arm of
`equals_datatype`: pairwise over the zip (which stops at the shorter
sequence), nullability must match and child types must be structurally
equal. -/
def FieldList.zipAllEquals : FieldList → FieldList → Bool
  | .cons (.mk _ an ta _) la, .cons (.mk _ bn tb _) lb =>
      (an == bn && DataType.equals_datatype ta tb) && FieldList.zipAllEquals la lb
  | _, _ => true
termination_by structural l => l

end

/-- The physical data types (`PhysicalDataType` in the source), which every
`DataType` can be converted to. -/
inductive PhysicalDataType where
  | Null
  | Boolean
  | Int8
  | Int16
  | Int32
  | Int64
  | Int128
  | UInt8
  | UInt16
  | UInt32
  | UInt64
  | Float16
  | Float32
  | Float64
  | DaysMs
  | Binary
  | FixedSizeBinary (size : Int)
  | LargeBinary
  | Utf8
  | LargeUtf8
  | List (field : Field)
  | FixedSizeList (field : Field) (size : Int)
  | LargeList (field : Field)
  | Struct (fields : FieldList)
  | Union (fields : FieldList) (ids : Option (List Int)) (is_sparse : Bool)
  | Dictionary (key : DataType) (value : DataType)

/-- `DataType::to_physical_type` (source lines 240-279): the total mapping of
every logical type onto its physical representation; `Extension` recurses on
the extension's reported underlying logical type. -/
def DataType.to_physical_type : DataType → PhysicalDataType
  | .Null => .Null
  | .Boolean => .Boolean
  | .UInt8 => .UInt8
  | .UInt16 => .UInt16
  | .UInt32 => .UInt32
  | .UInt64 => .UInt64
  | .Int8 => .Int8
  | .Int16 => .Int16
  | .Int32 => .Int32
  | .Date32 => .Int32
  | .Time32 _ => .Int32
  | .Interval .YearMonth => .Int32
  | .Int64 => .Int64
  | .Date64 => .Int64
  | .Time64 _ => .Int64
  | .Timestamp _ _ => .Int64
  | .Duration _ => .Int64
  | .Decimal _ _ => .Int128
  | .Interval .DayTime => .DaysMs
  | .Float16 => .Float16
  | .Float32 => .Float32
  | .Float64 => .Float64
  | .Utf8 => .Utf8
  | .LargeUtf8 => .LargeUtf8
  | .Binary => .Binary
  | .LargeBinary => .LargeBinary
  | .List x => .List x
  | .LargeList x => .LargeList x
  | .Struct x => .Struct x
  | .Dictionary k v => .Dictionary k v
  | .FixedSizeBinary size => .FixedSizeBinary size
  | .FixedSizeList x size => .FixedSizeList x size
  | .Union f ids is_sparse => .Union f ids is_sparse
  | .Extension (.mk _ t) => DataType.to_physical_type t

/-- `DataType::is_phsical_type` (source lines 281-311): the `matches!` list
of variants that are already expressed directly in the physical catalog. -/
def DataType.is_phsical_type : DataType → Bool
  | .Null
  | .Boolean
  | .Int8
  | .Int16
  | .Int32
  | .Int64
  | .UInt8
  | .UInt16
  | .UInt32
  | .UInt64
  | .Float16
  | .Float32
  | .Float64
  | .Binary
  | .LargeBinary
  | .FixedSizeBinary _
  | .Utf8
  | .LargeUtf8
  | .List _
  | .LargeList _
  | .FixedSizeList _ _
  | .Struct _
  | .Union _ _ _
  | .Dictionary _ _
  | .Interval .DayTime
  | .Decimal _ _ => true
  | _ => false

/-! ### Lemmas about the exact (`PartialEq`) equality -/

mutual

/-- Exact equality is reflexive. -/
theorem eqDT_refl : (x : DataType) → DataType.eqDT x x = true
  | .Null => rfl
  | .Boolean => rfl
  | .Int8 => rfl
  | .Int16 => rfl
  | .Int32 => rfl
  | .Int64 => rfl
  | .UInt8 => rfl
  | .UInt16 => rfl
  | .UInt32 => rfl
  | .UInt64 => rfl
  | .Float16 => rfl
  | .Float32 => rfl
  | .Float64 => rfl
  | .Timestamp u tz => by
      show (u == u && tz == tz) = true
      simp
  | .Date32 => rfl
  | .Date64 => rfl
  | .Time32 u => by
      show (u == u) = true
      simp
  | .Time64 u => by
      show (u == u) = true
      simp
  | .Duration u => by
      show (u == u) = true
      simp
  | .Interval u => by
      show (u == u) = true
      simp
  | .Binary => rfl
  | .FixedSizeBinary n => by
      show (n == n) = true
      simp
  | .LargeBinary => rfl
  | .Utf8 => rfl
  | .LargeUtf8 => rfl
  | .List f => eqF_refl f
  | .FixedSizeList f n => by
      show (Field.eqF f f && n == n) = true
      simp [eqF_refl f]
  | .LargeList f => eqF_refl f
  | .Struct fs => eqFL_refl fs
  | .Union fs ids sp => by
      show (FieldList.eqFL fs fs && ids == ids && sp == sp) = true
      simp [eqFL_refl fs]
  | .Dictionary k v => by
      show (DataType.eqDT k k && DataType.eqDT v v) = true
      simp [eqDT_refl k, eqDT_refl v]
  | .Decimal p sc => by
      show (p == p && sc == sc) = true
      simp
  | .Extension e => eqExt_refl e

/-- Exact `Field` equality is reflexive. -/
theorem eqF_refl : (f : Field) → Field.eqF f f = true
  | .mk n b t m => by
      show (n == n && b == b && DataType.eqDT t t && m == m) = true
      simp [eqDT_refl t]

/-- Exact field sequence equality is reflexive. -/
theorem eqFL_refl : (l : FieldList) → FieldList.eqFL l l = true
  | .nil => rfl
  | .cons f fs => by
      show (Field.eqF f f && FieldList.eqFL fs fs) = true
      simp [eqF_refl f, eqFL_refl fs]

/-- The modelled extension equality is reflexive. -/
theorem eqExt_refl : (e : Extension) → Extension.eqExt e e = true
  | .mk k t => by
      show (k == k && DataType.eqDT t t) = true
      simp [eqDT_refl t]

end

mutual

/-- Exact equality implies propositional equality: `eqDT` decides `Eq`. -/
theorem eqDT_sound : (x y : DataType) → DataType.eqDT x y = true → x = y
  | .Null, y, h => by cases y <;> first | rfl | exact Bool.noConfusion h
  | .Boolean, y, h => by cases y <;> first | rfl | exact Bool.noConfusion h
  | .Int8, y, h => by cases y <;> first | rfl | exact Bool.noConfusion h
  | .Int16, y, h => by cases y <;> first | rfl | exact Bool.noConfusion h
  | .Int32, y, h => by cases y <;> first | rfl | exact Bool.noConfusion h
  | .Int64, y, h => by cases y <;> first | rfl | exact Bool.noConfusion h
  | .UInt8, y, h => by cases y <;> first | rfl | exact Bool.noConfusion h
  | .UInt16, y, h => by cases y <;> first | rfl | exact Bool.noConfusion h
  | .UInt32, y, h => by cases y <;> first | rfl | exact Bool.noConfusion h
  | .UInt64, y, h => by cases y <;> first | rfl | exact Bool.noConfusion h
  | .Float16, y, h => by cases y <;> first | rfl | exact Bool.noConfusion h
  | .Float32, y, h => by cases y <;> first | rfl | exact Bool.noConfusion h
  | .Float64, y, h => by cases y <;> first | rfl | exact Bool.noConfusion h
  | .Date32, y, h => by cases y <;> first | rfl | exact Bool.noConfusion h
  | .Date64, y, h => by cases y <;> first | rfl | exact Bool.noConfusion h
  | .Binary, y, h => by cases y <;> first | rfl | exact Bool.noConfusion h
  | .LargeBinary, y, h => by cases y <;> first | rfl | exact Bool.noConfusion h
  | .Utf8, y, h => by cases y <;> first | rfl | exact Bool.noConfusion h
  | .LargeUtf8, y, h => by cases y <;> first | rfl | exact Bool.noConfusion h
  | .Timestamp l0 l1, y, h => by
      cases y <;> try exact Bool.noConfusion h
      rename_i r0 r1
      replace h : (l0 == r0 && l1 == r1) = true := h
      simp only [Bool.and_eq_true, beq_iff_eq] at h
      rw [h.1, h.2]
  | .Time32 l0, y, h => by
      cases y <;> try exact Bool.noConfusion h
      rename_i r0
      replace h : (l0 == r0) = true := h
      rw [eq_of_beq h]
  | .Time64 l0, y, h => by
      cases y <;> try exact Bool.noConfusion h
      rename_i r0
      replace h : (l0 == r0) = true := h
      rw [eq_of_beq h]
  | .Duration l0, y, h => by
      cases y <;> try exact Bool.noConfusion h
      rename_i r0
      replace h : (l0 == r0) = true := h
      rw [eq_of_beq h]
  | .Interval l0, y, h => by
      cases y <;> try exact Bool.noConfusion h
      rename_i r0
      replace h : (l0 == r0) = true := h
      rw [eq_of_beq h]
  | .FixedSizeBinary l0, y, h => by
      cases y <;> try exact Bool.noConfusion h
      rename_i r0
      replace h : (l0 == r0) = true := h
      rw [eq_of_beq h]
  | .Decimal l0 l1, y, h => by
      cases y <;> try exact Bool.noConfusion h
      rename_i r0 r1
      replace h : (l0 == r0 && l1 == r1) = true := h
      simp only [Bool.and_eq_true, beq_iff_eq] at h
      rw [h.1, h.2]
  | .List l0, y, h => by
      cases y <;> try exact Bool.noConfusion h
      rename_i r0
      replace h : Field.eqF l0 r0 = true := h
      rw [eqF_sound l0 r0 h]
  | .LargeList l0, y, h => by
      cases y <;> try exact Bool.noConfusion h
      rename_i r0
      replace h : Field.eqF l0 r0 = true := h
      rw [eqF_sound l0 r0 h]
  | .FixedSizeList l0 l1, y, h => by
      cases y <;> try exact Bool.noConfusion h
      rename_i r0 r1
      replace h : (Field.eqF l0 r0 && l1 == r1) = true := h
      simp only [Bool.and_eq_true, beq_iff_eq] at h
      rw [eqF_sound l0 r0 h.1, h.2]
  | .Struct l0, y, h => by
      cases y <;> try exact Bool.noConfusion h
      rename_i r0
      replace h : FieldList.eqFL l0 r0 = true := h
      rw [eqFL_sound l0 r0 h]
  | .Union l0 l1 l2, y, h => by
      cases y <;> try exact Bool.noConfusion h
      rename_i r0 r1 r2
      replace h : (FieldList.eqFL l0 r0 && l1 == r1 && l2 == r2) = true := h
      simp only [Bool.and_eq_true, beq_iff_eq] at h
      rw [eqFL_sound l0 r0 h.1.1, h.1.2, h.2]
  | .Dictionary l0 l1, y, h => by
      cases y <;> try exact Bool.noConfusion h
      rename_i r0 r1
      replace h : (DataType.eqDT l0 r0 && DataType.eqDT l1 r1) = true := h
      simp only [Bool.and_eq_true] at h
      rw [eqDT_sound l0 r0 h.1, eqDT_sound l1 r1 h.2]
  | .Extension l0, y, h => by
      cases y <;> try exact Bool.noConfusion h
      rename_i r0
      replace h : Extension.eqExt l0 r0 = true := h
      rw [eqExt_sound l0 r0 h]

/-- Exact `Field` equality implies propositional equality. -/
theorem eqF_sound : (f g : Field) → Field.eqF f g = true → f = g
  | .mk n1 b1 t1 m1, .mk n2 b2 t2 m2, h => by
      replace h : (n1 == n2 && b1 == b2 && DataType.eqDT t1 t2 && m1 == m2) = true := h
      simp only [Bool.and_eq_true, beq_iff_eq] at h
      rw [h.1.1.1, h.1.1.2, eqDT_sound t1 t2 h.1.2, h.2]

/-- Exact field sequence equality implies propositional equality. -/
theorem eqFL_sound : (l m : FieldList) → FieldList.eqFL l m = true → l = m
  | .nil, .nil, _ => rfl
  | .nil, .cons _ _, h => Bool.noConfusion h
  | .cons _ _, .nil, h => Bool.noConfusion h
  | .cons f fs, .cons g gs, h => by
      replace h : (Field.eqF f g && FieldList.eqFL fs gs) = true := h
      simp only [Bool.and_eq_true] at h
      rw [eqF_sound f g h.1, eqFL_sound fs gs h.2]

/-- The modelled extension equality implies propositional equality. -/
theorem eqExt_sound : (d e : Extension) → Extension.eqExt d e = true → d = e
  | .mk k1 t1, .mk k2 t2, h => by
      replace h : (k1 == k2 && DataType.eqDT t1 t2) = true := h
      simp only [Bool.and_eq_true, beq_iff_eq] at h
      rw [h.1, eqDT_sound t1 t2 h.2]

end

/-- Exact equality is symmetric. -/
theorem eqDT_symm (x y : DataType) (h : DataType.eqDT x y = true) :
    DataType.eqDT y x = true := by
  rw [eqDT_sound x y h]
  exact eqDT_refl y

/-! ### Lemmas about Structural Equality (`equals_datatype`) -/

mutual

/-- Structural Equality is reflexive. -/
theorem equals_refl : (x : DataType) → DataType.equals_datatype x x = true
  | .Null => eqDT_refl .Null
  | .Boolean => eqDT_refl .Boolean
  | .Int8 => eqDT_refl .Int8
  | .Int16 => eqDT_refl .Int16
  | .Int32 => eqDT_refl .Int32
  | .Int64 => eqDT_refl .Int64
  | .UInt8 => eqDT_refl .UInt8
  | .UInt16 => eqDT_refl .UInt16
  | .UInt32 => eqDT_refl .UInt32
  | .UInt64 => eqDT_refl .UInt64
  | .Float16 => eqDT_refl .Float16
  | .Float32 => eqDT_refl .Float32
  | .Float64 => eqDT_refl .Float64
  | .Timestamp u tz => eqDT_refl (.Timestamp u tz)
  | .Date32 => eqDT_refl .Date32
  | .Date64 => eqDT_refl .Date64
  | .Time32 u => eqDT_refl (.Time32 u)
  | .Time64 u => eqDT_refl (.Time64 u)
  | .Duration u => eqDT_refl (.Duration u)
  | .Interval u => eqDT_refl (.Interval u)
  | .Binary => eqDT_refl .Binary
  | .FixedSizeBinary n => eqDT_refl (.FixedSizeBinary n)
  | .LargeBinary => eqDT_refl .LargeBinary
  | .Utf8 => eqDT_refl .Utf8
  | .LargeUtf8 => eqDT_refl .LargeUtf8
  | .List (.mk n b t m) => by
      show (b == b && DataType.equals_datatype t t) = true
      simp [equals_refl t]
  | .FixedSizeList (.mk n b t m) sz => by
      show (sz == sz && b == b && DataType.equals_datatype t t) = true
      simp [equals_refl t]
  | .LargeList (.mk n b t m) => by
      show (b == b && DataType.equals_datatype t t) = true
      simp [equals_refl t]
  | .Struct fs => by
      show (FieldList.length fs == FieldList.length fs && FieldList.zipAllEquals fs fs) = true
      simp [zipAll_refl fs]
  | .Union fs ids sp => eqDT_refl (.Union fs ids sp)
  | .Dictionary k v => eqDT_refl (.Dictionary k v)
  | .Decimal p sc => eqDT_refl (.Decimal p sc)
  | .Extension e => eqDT_refl (.Extension e)

/-- The `zip`-`all` comparison of the `Struct` arm is reflexive. -/
theorem zipAll_refl : (l : FieldList) → FieldList.zipAllEquals l l = true
  | .nil => rfl
  | .cons (.mk n b t m) tl => by
      show ((b == b && DataType.equals_datatype t t) && FieldList.zipAllEquals tl tl) = true
      simp [equals_refl t, zipAll_refl tl]

end

mutual

/-- Structural Equality is symmetric. -/
theorem equals_symm : (x y : DataType) →
    DataType.equals_datatype x y = true → DataType.equals_datatype y x = true
  | .Null, y, h => by
      cases y <;> first | exact Bool.noConfusion h | exact eqDT_symm _ _ h
  | .Boolean, y, h => by
      cases y <;> first | exact Bool.noConfusion h | exact eqDT_symm _ _ h
  | .Int8, y, h => by
      cases y <;> first | exact Bool.noConfusion h | exact eqDT_symm _ _ h
  | .Int16, y, h => by
      cases y <;> first | exact Bool.noConfusion h | exact eqDT_symm _ _ h
  | .Int32, y, h => by
      cases y <;> first | exact Bool.noConfusion h | exact eqDT_symm _ _ h
  | .Int64, y, h => by
      cases y <;> first | exact Bool.noConfusion h | exact eqDT_symm _ _ h
  | .UInt8, y, h => by
      cases y <;> first | exact Bool.noConfusion h | exact eqDT_symm _ _ h
  | .UInt16, y, h => by
      cases y <;> first | exact Bool.noConfusion h | exact eqDT_symm _ _ h
  | .UInt32, y, h => by
      cases y <;> first | exact Bool.noConfusion h | exact eqDT_symm _ _ h
  | .UInt64, y, h => by
      cases y <;> first | exact Bool.noConfusion h | exact eqDT_symm _ _ h
  | .Float16, y, h => by
      cases y <;> first | exact Bool.noConfusion h | exact eqDT_symm _ _ h
  | .Float32, y, h => by
      cases y <;> first | exact Bool.noConfusion h | exact eqDT_symm _ _ h
  | .Float64, y, h => by
      cases y <;> first | exact Bool.noConfusion h | exact eqDT_symm _ _ h
  | .Timestamp l0 l1, y, h => by
      cases y <;> first | exact Bool.noConfusion h | exact eqDT_symm _ _ h
  | .Date32, y, h => by
      cases y <;> first | exact Bool.noConfusion h | exact eqDT_symm _ _ h
  | .Date64, y, h => by
      cases y <;> first | exact Bool.noConfusion h | exact eqDT_symm _ _ h
  | .Time32 l0, y, h => by
      cases y <;> first | exact Bool.noConfusion h | exact eqDT_symm _ _ h
  | .Time64 l0, y, h => by
      cases y <;> first | exact Bool.noConfusion h | exact eqDT_symm _ _ h
  | .Duration l0, y, h => by
      cases y <;> first | exact Bool.noConfusion h | exact eqDT_symm _ _ h
  | .Interval l0, y, h => by
      cases y <;> first | exact Bool.noConfusion h | exact eqDT_symm _ _ h
  | .Binary, y, h => by
      cases y <;> first | exact Bool.noConfusion h | exact eqDT_symm _ _ h
  | .FixedSizeBinary l0, y, h => by
      cases y <;> first | exact Bool.noConfusion h | exact eqDT_symm _ _ h
  | .LargeBinary, y, h => by
      cases y <;> first | exact Bool.noConfusion h | exact eqDT_symm _ _ h
  | .Utf8, y, h => by
      cases y <;> first | exact Bool.noConfusion h | exact eqDT_symm _ _ h
  | .LargeUtf8, y, h => by
      cases y <;> first | exact Bool.noConfusion h | exact eqDT_symm _ _ h
  | .List (.mk n b t m), y, h => by
      cases y <;> try exact Bool.noConfusion h
      rename_i g
      cases g with
      | mk n2 b2 t2 m2 =>
        replace h : (b == b2 && DataType.equals_datatype t t2) = true := h
        simp only [Bool.and_eq_true, beq_iff_eq] at h
        show (b2 == b && DataType.equals_datatype t2 t) = true
        simp only [Bool.and_eq_true, beq_iff_eq]
        exact ⟨h.1.symm, equals_symm t t2 h.2⟩
  | .FixedSizeList (.mk n b t m) sz, y, h => by
      cases y <;> try exact Bool.noConfusion h
      rename_i g sz2
      cases g with
      | mk n2 b2 t2 m2 =>
        replace h : (sz == sz2 && b == b2 && DataType.equals_datatype t t2) = true := h
        simp only [Bool.and_eq_true, beq_iff_eq] at h
        show (sz2 == sz && b2 == b && DataType.equals_datatype t2 t) = true
        simp only [Bool.and_eq_true, beq_iff_eq]
        exact ⟨⟨h.1.1.symm, h.1.2.symm⟩, equals_symm t t2 h.2⟩
  | .LargeList (.mk n b t m), y, h => by
      cases y <;> try exact Bool.noConfusion h
      rename_i g
      cases g with
      | mk n2 b2 t2 m2 =>
        replace h : (b == b2 && DataType.equals_datatype t t2) = true := h
        simp only [Bool.and_eq_true, beq_iff_eq] at h
        show (b2 == b && DataType.equals_datatype t2 t) = true
        simp only [Bool.and_eq_true, beq_iff_eq]
        exact ⟨h.1.symm, equals_symm t t2 h.2⟩
  | .Struct fs, y, h => by
      cases y <;> try exact Bool.noConfusion h
      rename_i gs
      replace h : (FieldList.length fs == FieldList.length gs && FieldList.zipAllEquals fs gs) = true := h
      simp only [Bool.and_eq_true, beq_iff_eq] at h
      show (FieldList.length gs == FieldList.length fs && FieldList.zipAllEquals gs fs) = true
      simp only [Bool.and_eq_true, beq_iff_eq]
      exact ⟨h.1.symm, zipAll_symm fs gs h.2⟩
  | .Union l0 l1 l2, y, h => by
      cases y <;> first | exact Bool.noConfusion h | exact eqDT_symm _ _ h
  | .Dictionary l0 l1, y, h => by
      cases y <;> first | exact Bool.noConfusion h | exact eqDT_symm _ _ h
  | .Decimal l0 l1, y, h => by
      cases y <;> first | exact Bool.noConfusion h | exact eqDT_symm _ _ h
  | .Extension l0, y, h => by
      cases y <;> first | exact Bool.noConfusion h | exact eqDT_symm _ _ h

/-- The `zip`-`all` comparison of the `Struct` arm is symmetric. -/
theorem zipAll_symm : (l m : FieldList) →
    FieldList.zipAllEquals l m = true → FieldList.zipAllEquals m l = true
  | .nil, .nil, _ => rfl
  | .nil, .cons g gs, _ => by
      cases g with
      | mk n2 b2 t2 m2 => rfl
  | .cons f fs, .nil, _ => by
      cases f with
      | mk n2 b2 t2 m2 => rfl
  | .cons (.mk n b t m) fs, .cons (.mk n2 b2 t2 m2) gs, h => by
      replace h : ((b == b2 && DataType.equals_datatype t t2) && FieldList.zipAllEquals fs gs) = true := h
      simp only [Bool.and_eq_true, beq_iff_eq] at h
      show ((b2 == b && DataType.equals_datatype t2 t) && FieldList.zipAllEquals gs fs) = true
      simp only [Bool.and_eq_true, beq_iff_eq]
      exact ⟨⟨h.1.1.symm, equals_symm t t2 h.1.2⟩, zipAll_symm fs gs h.2⟩

end

/-- Exact field sequence equality implies equal lengths. -/
theorem eqFL_len : (l m : FieldList) →
    FieldList.eqFL l m = true → FieldList.length l = FieldList.length m
  | .nil, .nil, _ => rfl
  | .nil, .cons _ _, h => Bool.noConfusion h
  | .cons _ _, .nil, h => Bool.noConfusion h
  | .cons f fs, .cons g gs, h => by
      replace h : (Field.eqF f g && FieldList.eqFL fs gs) = true := h
      simp only [Bool.and_eq_true] at h
      show FieldList.length fs + 1 = FieldList.length gs + 1
      rw [eqFL_len fs gs h.2]

mutual

/-- Exact equality implies Structural Equality. -/
theorem eq_imp_equals : (x y : DataType) →
    DataType.eqDT x y = true → DataType.equals_datatype x y = true
  | .Null, _, h => h
  | .Boolean, _, h => h
  | .Int8, _, h => h
  | .Int16, _, h => h
  | .Int32, _, h => h
  | .Int64, _, h => h
  | .UInt8, _, h => h
  | .UInt16, _, h => h
  | .UInt32, _, h => h
  | .UInt64, _, h => h
  | .Float16, _, h => h
  | .Float32, _, h => h
  | .Float64, _, h => h
  | .Timestamp _ _, _, h => h
  | .Date32, _, h => h
  | .Date64, _, h => h
  | .Time32 _, _, h => h
  | .Time64 _, _, h => h
  | .Duration _, _, h => h
  | .Interval _, _, h => h
  | .Binary, _, h => h
  | .FixedSizeBinary _, _, h => h
  | .LargeBinary, _, h => h
  | .Utf8, _, h => h
  | .LargeUtf8, _, h => h
  | .Union _ _ _, _, h => h
  | .Dictionary _ _, _, h => h
  | .Decimal _ _, _, h => h
  | .Extension _, _, h => h
  | .List (.mk n b t m), y, h => by
      cases y <;> try exact Bool.noConfusion h
      rename_i g
      cases g with
      | mk n2 b2 t2 m2 =>
        replace h : (n == n2 && b == b2 && DataType.eqDT t t2 && m == m2) = true := h
        simp only [Bool.and_eq_true, beq_iff_eq] at h
        show (b == b2 && DataType.equals_datatype t t2) = true
        simp only [Bool.and_eq_true, beq_iff_eq]
        exact ⟨h.1.1.2, eq_imp_equals t t2 h.1.2⟩
  | .LargeList (.mk n b t m), y, h => by
      cases y <;> try exact Bool.noConfusion h
      rename_i g
      cases g with
      | mk n2 b2 t2 m2 =>
        replace h : (n == n2 && b == b2 && DataType.eqDT t t2 && m == m2) = true := h
        simp only [Bool.and_eq_true, beq_iff_eq] at h
        show (b == b2 && DataType.equals_datatype t t2) = true
        simp only [Bool.and_eq_true, beq_iff_eq]
        exact ⟨h.1.1.2, eq_imp_equals t t2 h.1.2⟩
  | .FixedSizeList (.mk n b t m) sz, y, h => by
      cases y <;> try exact Bool.noConfusion h
      rename_i g sz2
      cases g with
      | mk n2 b2 t2 m2 =>
        replace h : ((n == n2 && b == b2 && DataType.eqDT t t2 && m == m2) && sz == sz2) = true := h
        simp only [Bool.and_eq_true, beq_iff_eq] at h
        show (sz == sz2 && b == b2 && DataType.equals_datatype t t2) = true
        simp only [Bool.and_eq_true, beq_iff_eq]
        exact ⟨⟨h.2, h.1.1.1.2⟩, eq_imp_equals t t2 h.1.1.2⟩
  | .Struct fs, y, h => by
      cases y <;> try exact Bool.noConfusion h
      rename_i gs
      replace h : FieldList.eqFL fs gs = true := h
      show (FieldList.length fs == FieldList.length gs && FieldList.zipAllEquals fs gs) = true
      simp only [Bool.and_eq_true, beq_iff_eq]
      exact ⟨eqFL_len fs gs h, eqFL_imp_zip fs gs h⟩

/-- Exact field sequence equality implies the `zip`-`all` structural check. -/
theorem eqFL_imp_zip : (l m : FieldList) →
    FieldList.eqFL l m = true → FieldList.zipAllEquals l m = true
  | .nil, .nil, _ => rfl
  | .nil, .cons _ _, h => Bool.noConfusion h
  | .cons _ _, .nil, h => Bool.noConfusion h
  | .cons (.mk n b t m) fs, .cons (.mk n2 b2 t2 m2) gs, h => by
      replace h : ((n == n2 && b == b2 && DataType.eqDT t t2 && m == m2) && FieldList.eqFL fs gs) = true := h
      simp only [Bool.and_eq_true, beq_iff_eq] at h
      show ((b == b2 && DataType.equals_datatype t t2) && FieldList.zipAllEquals fs gs) = true
      simp only [Bool.and_eq_true, beq_iff_eq]
      exact ⟨⟨h.1.1.1.2, eq_imp_equals t t2 h.1.1.2⟩, eqFL_imp_zip fs gs h.2⟩

end

/-! ### The claims -/

/-- C1: the physical type classifier maps each temporal/decimal logical type
to the collapsed physical representation of the spec table: `Date32`,
`Time32(u)` and `Interval(YearMonth)` map to `Int32`; `Date64`, `Time64(u)`,
`Timestamp(u, tz)` and `Duration(u)` map to `Int64`; `Decimal(p, s)` maps to
`Int128`; `Interval(DayTime)` maps to the packed days+milliseconds physical
type `DaysMs`. -/
theorem c1_temporal_decimal_physical :
    DataType.to_physical_type .Date32 = .Int32
    ∧ (∀ u : TimeUnit, DataType.to_physical_type (.Time32 u) = .Int32)
    ∧ DataType.to_physical_type (.Interval .YearMonth) = .Int32
    ∧ DataType.to_physical_type .Date64 = .Int64
    ∧ (∀ u : TimeUnit, DataType.to_physical_type (.Time64 u) = .Int64)
    ∧ (∀ (u : TimeUnit) (tz : Option String),
        DataType.to_physical_type (.Timestamp u tz) = .Int64)
    ∧ (∀ u : TimeUnit, DataType.to_physical_type (.Duration u) = .Int64)
    ∧ (∀ p sc : Nat, DataType.to_physical_type (.Decimal p sc) = .Int128)
    ∧ DataType.to_physical_type (.Interval .DayTime) = .DaysMs :=
  ⟨rfl, fun _ => rfl, rfl, rfl, fun _ => rfl, fun _ _ => rfl, fun _ => rfl,
    fun _ _ => rfl, rfl⟩

/-- C2: the "already physical" predicate `is_phsical_type` returns true for
`Interval(DayTime)` and false for `Interval(YearMonth)`, `Date32`, and
`Time32(u)` for every `TimeUnit` `u`. -/
theorem c2_already_physical_intervals :
    DataType.is_phsical_type (.Interval .DayTime) = true
    ∧ DataType.is_phsical_type (.Interval .YearMonth) = false
    ∧ DataType.is_phsical_type .Date32 = false
    ∧ (∀ u : TimeUnit, DataType.is_phsical_type (.Time32 u) = false) :=
  ⟨rfl, rfl, rfl, fun _ => rfl⟩

/-- C3: Structural Equality ignores child field names but not nullability or
position: `List` children with equal nullability and type are structurally
equal whatever their names and metadata, and unequal when nullability flags
differ; the two-field `Struct` example is structurally equal to the same
(nullability, type) pairs under different names but not to the swapped
order. -/
theorem c3_structural_ignores_names :
    (∀ (a b : String) (n : Bool) (t : DataType) (m1 m2 : List (String × String)),
      DataType.equals_datatype (.List (.mk a n t m1)) (.List (.mk b n t m2)) = true)
    ∧ (∀ (a b : String) (n1 n2 : Bool) (t : DataType)
        (m1 m2 : List (String × String)), n1 ≠ n2 →
      DataType.equals_datatype (.List (.mk a n1 t m1)) (.List (.mk b n2 t m2)) = false)
    ∧ DataType.equals_datatype
        (.Struct (.cons (.mk "x" false .Int32 []) (.cons (.mk "y" true .Utf8 []) .nil)))
        (.Struct (.cons (.mk "p" false .Int32 []) (.cons (.mk "q" true .Utf8 []) .nil)))
        = true
    ∧ DataType.equals_datatype
        (.Struct (.cons (.mk "x" false .Int32 []) (.cons (.mk "y" true .Utf8 []) .nil)))
        (.Struct (.cons (.mk "y" true .Utf8 []) (.cons (.mk "x" false .Int32 []) .nil)))
        = false := by
  refine ⟨?_, ?_, ?_, ?_⟩
  · intro a b n t m1 m2
    show (n == n && DataType.equals_datatype t t) = true
    simp [equals_refl t]
  · intro a b n1 n2 t m1 m2 h
    show (n1 == n2 && DataType.equals_datatype t t) = false
    cases n1 <;> cases n2 <;> first | exact absurd rfl h | rfl
  · decide
  · decide

/-- Witness for C3 at a concrete input with differing nullability flags. -/
theorem c3_structural_ignores_names_witness :
    DataType.equals_datatype (.List (.mk "a" true .Int32 []))
      (.List (.mk "b" false .Int32 [])) = false :=
  c3_structural_ignores_names.2.1 "a" "b" true false .Int32 [] [] (by decide)

/-- C4: the physical type classifier is total and terminating: every
constructible logical-type value, nested combinations and `Extension` values
included, is mapped to a physical value, and `Extension` is classified by
recursing on the extension's reported underlying logical type. -/
theorem c4_to_physical_type_total :
    (∀ x : DataType, ∃ p : PhysicalDataType, DataType.to_physical_type x = p)
    ∧ (∀ e : Extension, DataType.to_physical_type (.Extension e)
        = DataType.to_physical_type e.data_type) :=
  ⟨fun x => ⟨DataType.to_physical_type x, rfl⟩,
    fun e => by cases e with | mk k t => rfl⟩

/-- The variant pairings handled structurally by `equals_datatype`:
List/List, LargeList/LargeList, FixedSizeList/FixedSizeList and
Struct/Struct; all other pairs take the fallback arm. -/
def structural_pair : DataType → DataType → Bool
  | .List _, .List _ => true
  | .LargeList _, .LargeList _ => true
  | .FixedSizeList _ _, .FixedSizeList _ _ => true
  | .Struct _, .Struct _ => true
  | _, _ => false

/-- C5: for every pair of logical types outside the four structural pairings,
Structural Equality coincides with full exact equality; in particular two
`Union` values differing only in a nested child field name are not
structurally equal. -/
theorem c5_fallback_is_exact :
    (∀ x y : DataType, structural_pair x y = false →
      DataType.equals_datatype x y = DataType.eqDT x y)
    ∧ DataType.equals_datatype
        (.Union (.cons (.mk "a" false .Int32 []) .nil) none true)
        (.Union (.cons (.mk "b" false .Int32 []) .nil) none true) = false := by
  constructor
  · intro x y h
    cases x <;> try rfl
    all_goals try (rename_i f sz; cases f)
    all_goals try (rename_i f; cases f)
    all_goals cases y <;> first | rfl | exact Bool.noConfusion h
  · decide

/-- Witness for C5 at a concrete non-structural pair. -/
theorem c5_fallback_is_exact_witness :
    DataType.equals_datatype .Null .Boolean = DataType.eqDT .Null .Boolean :=
  c5_fallback_is_exact.1 .Null .Boolean (by decide)

/-- C6: exact equality is variant-aware: every payload-free variant equals a
freshly constructed value of the same variant, and values built from two
distinct variants (distinct discriminants) are never exactly equal. -/
theorem c6_exact_eq_variant_aware :
    (DataType.eqDT .Null .Null = true ∧ DataType.eqDT .Boolean .Boolean = true
      ∧ DataType.eqDT .Int8 .Int8 = true ∧ DataType.eqDT .Int16 .Int16 = true
      ∧ DataType.eqDT .Int32 .Int32 = true ∧ DataType.eqDT .Int64 .Int64 = true
      ∧ DataType.eqDT .UInt8 .UInt8 = true ∧ DataType.eqDT .UInt16 .UInt16 = true
      ∧ DataType.eqDT .UInt32 .UInt32 = true ∧ DataType.eqDT .UInt64 .UInt64 = true
      ∧ DataType.eqDT .Float16 .Float16 = true ∧ DataType.eqDT .Float32 .Float32 = true
      ∧ DataType.eqDT .Float64 .Float64 = true ∧ DataType.eqDT .Date32 .Date32 = true
      ∧ DataType.eqDT .Date64 .Date64 = true ∧ DataType.eqDT .Binary .Binary = true
      ∧ DataType.eqDT .LargeBinary .LargeBinary = true
      ∧ DataType.eqDT .Utf8 .Utf8 = true
      ∧ DataType.eqDT .LargeUtf8 .LargeUtf8 = true)
    ∧ (∀ x y : DataType, DataType.tag x ≠ DataType.tag y →
        DataType.eqDT x y = false) := by
  refine ⟨by decide, ?_⟩
  intro x y h
  cases x <;> cases y <;> first | exact absurd rfl h | rfl

/-- Witness for C6 at a concrete pair of distinct variants. -/
theorem c6_exact_eq_variant_aware_witness :
    DataType.eqDT .Null .Boolean = false :=
  c6_exact_eq_variant_aware.2 .Null .Boolean (by decide)

/-- C7: Structural Equality is reflexive and symmetric for all constructed
values (the modelled extension equality is itself reflexive and symmetric). -/
theorem c7_structural_refl_symm :
    (∀ x : DataType, DataType.equals_datatype x x = true)
    ∧ (∀ x y : DataType, DataType.equals_datatype x y = true →
        DataType.equals_datatype y x = true) :=
  ⟨equals_refl, equals_symm⟩

/-- Witness for C7: symmetry applied at a concrete input whose hypothesis is
discharged by reflexivity. -/
theorem c7_structural_refl_symm_witness :
    DataType.equals_datatype .Utf8 .Utf8 = true :=
  c7_structural_refl_symm.2 .Utf8 .Utf8 (c7_structural_refl_symm.1 .Utf8)

/-- C8: `is_phsical_type` returns true for `Decimal(p, s)` for all `p`, `s`,
even though the classifier maps `Decimal` onto `Int128`, in contrast with
`Interval(YearMonth)`, which maps onto `Int32` and is reported not
physical. -/
theorem c8_decimal_already_physical :
    (∀ p sc : Nat, DataType.is_phsical_type (.Decimal p sc) = true
      ∧ DataType.to_physical_type (.Decimal p sc) = .Int128)
    ∧ DataType.is_phsical_type (.Interval .YearMonth) = false
    ∧ DataType.to_physical_type (.Interval .YearMonth) = .Int32 :=
  ⟨fun _ _ => ⟨rfl, rfl⟩, rfl, rfl⟩

/-- C9: `is_phsical_type` returns false for every `Extension`-wrapped value,
regardless of the underlying type: the predicate never recurses through the
extension, while the classifier does. -/
theorem c9_extension_never_physical :
    ∀ e : Extension, DataType.is_phsical_type (.Extension e) = false
      ∧ DataType.to_physical_type (.Extension e)
        = DataType.to_physical_type e.data_type :=
  fun e => ⟨rfl, by cases e with | mk k t => rfl⟩

/-- C10: exact equality refines Structural Equality: exactly equal logical
types are structurally equal. -/
theorem c10_exact_refines_structural :
    ∀ x y : DataType, DataType.eqDT x y = true →
      DataType.equals_datatype x y = true :=
  eq_imp_equals

/-- Witness for C10 at a concrete input. -/
theorem c10_exact_refines_structural_witness :
    DataType.equals_datatype (.Decimal 10 2) (.Decimal 10 2) = true :=
  c10_exact_refines_structural (.Decimal 10 2) (.Decimal 10 2) (by decide)

end Arrow2
